import Mathlib

/-!
Shallow embedding of the fs-jira core: the durable SQLite-backed cache
(src/src/cache/persistent.rs), the in-memory TTL cache (src/src/cache.rs),
the sync engine (src/src/warmup.rs), the sync-state coordinator
(src/src/sync_state.rs) and the FUSE view's write and lookup paths
(src/src/fs.rs). Byte strings are lists of naturals, SQLite tables are
finite maps keyed by their primary key (the PRIMARY KEY constraint makes
"at most one row per key" structural), and Instant values are naturals.
-/

/-- Byte strings (Rust `Vec<u8>` / `&[u8]`) as lists of naturals. -/
abbrev Bytes := List Nat

/-- Modelled from the spec: `crate::jira::IssueRef` is not among the provided
sources; the spec data model gives it as an issue key plus an optional opaque
upstream timestamp. -/
structure IssueRef where
  key : String
  updated : Option String
deriving DecidableEq, Repr

/-- Row of the `issues` table (schema in `PersistentCache::new`). -/
structure IssueRow where
  markdown : Bytes
  updated : Option String
  cached_at : String
  access_count : Nat
deriving DecidableEq, Repr

/-- Row of the `ticket_index` table, keyed by `issue_key`. -/
structure TicketIndexRow where
  project : String
  updated_at : Option String
  path : String
  last_indexed_at : String
deriving DecidableEq, Repr

/-- Row of the `issue_sidecars` table, keyed by `issue_key`. -/
structure SidecarRow where
  comments_md : Bytes
  comments_jsonl : Bytes
  updated : Option String
  cached_at : String
deriving DecidableEq, Repr

/-- Result shape of `PersistentCache::get_issue`. -/
structure PersistentIssue where
  markdown : Bytes
  updated : Option String
deriving DecidableEq, Repr

/-- The SQLite-backed store (`PersistentCache` in persistent.rs): each table is
a map from its primary key. -/
structure PersistentCache where
  issues : String → Option IssueRow
  sync_cursor : String → Option String
  ticket_index : String → Option TicketIndexRow
  issue_sidecars : String → Option SidecarRow

/-- Point update of a keyed table. -/
def mapUpdate {α : Type} (key : String) (v : α) (m : String → Option α) :
    String → Option α :=
  fun k => if k = key then some v else m k

/-- Embeds `project_from_issue_key` (persistent.rs): the text before the first hyphen
of the issue key (`split_once`), or `"UNKNOWN"` when the key has no hyphen. -/
def project_from_issue_key (issue_key : String) : String :=
  if issue_key.toList.contains '-' then
    String.mk (issue_key.toList.takeWhile (fun c => c ≠ '-'))
  else "UNKNOWN"

namespace PersistentCache

/-- Embeds `upsert_ticket_index` (free function in persistent.rs): insert-or-replace
the derived index row for one issue key, with
`path = "projects/<project>/<key>.md"`. -/
def upsert_ticket_index (st : PersistentCache) (issue_key : String)
    (updated : Option String) (now : String) : PersistentCache :=
  let project := project_from_issue_key issue_key
  let path := "projects/" ++ project ++ "/" ++ issue_key ++ ".md"
  {st with ticket_index := mapUpdate issue_key ⟨project, updated, path, now⟩ st.ticket_index}

/-- Embeds `PersistentCache::upsert_issue`: insert-or-update the issues row (conflict
target `issue_key`; `access_count` starts at 1 and is bumped on conflict), then
upsert the derived ticket-index row. Both steps are one transaction in the
source; failure-free SQLite execution is assumed here. -/
def upsert_issue (st : PersistentCache) (issue_key : String) (markdown : Bytes)
    (updated : Option String) (now : String) : PersistentCache :=
  let access := match st.issues issue_key with
    | some row => row.access_count + 1
    | none => 1
  let st1 := {st with issues := mapUpdate issue_key ⟨markdown, updated, now, access⟩ st.issues}
  upsert_ticket_index st1 issue_key updated now

/-- Embeds `PersistentCache::get_issue`: select the row, then bump `access_count`; a
failure of the bump (`increment_fails`) propagates through the `?` operator,
turning the whole read into an error, as the source's doc comment states. -/
def get_issue (st : PersistentCache) (increment_fails : Bool) (issue_key : String) :
    Except Unit (Option PersistentIssue) × PersistentCache :=
  match st.issues issue_key with
  | some row =>
    if increment_fails then (.error (), st)
    else
      (.ok (some ⟨row.markdown, row.updated⟩),
       {st with issues :=
         mapUpdate issue_key {row with access_count := row.access_count + 1} st.issues})
  | none => (.ok none, st)

/-- Embeds `PersistentCache::upsert_issues_batch`: per-row upsert (markdown row plus
ticket-index row), all in one transaction; the returned count is the number of
rows, i.e. `rows.length`. -/
def upsert_issues_batch (st : PersistentCache) (rows : List (String × Bytes × Option String))
    (now : String) : PersistentCache :=
  rows.foldl (fun acc r => acc.upsert_issue r.1 r.2.1 r.2.2 now) st

/-- Embeds `PersistentCache::set_sync_cursor`: insert-or-update the per-project cursor. -/
def set_sync_cursor (st : PersistentCache) (project last_sync : String) : PersistentCache :=
  {st with sync_cursor := mapUpdate project last_sync st.sync_cursor}

/-- Embeds `PersistentCache::upsert_issue_sidecars`: insert-or-replace both comment
renderings for one issue key. -/
def upsert_issue_sidecars (st : PersistentCache) (issue_key : String)
    (comments_md comments_jsonl : Bytes) (updated : Option String) (now : String) :
    PersistentCache :=
  {st with issue_sidecars :=
    mapUpdate issue_key ⟨comments_md, comments_jsonl, updated, now⟩ st.issue_sidecars}

/-- Embeds `PersistentCache::upsert_issue_sidecars_batch`: per-row sidecar upsert in
one transaction. -/
def upsert_issue_sidecars_batch (st : PersistentCache)
    (rows : List (String × Bytes × Bytes × Option String)) (now : String) : PersistentCache :=
  rows.foldl (fun acc r => acc.upsert_issue_sidecars r.1 r.2.1 r.2.2.1 r.2.2.2 now) st

/-- Embeds `PersistentCache::issue_markdown_len`. -/
def issue_markdown_len (st : PersistentCache) (issue_key : String) : Option Nat :=
  (st.issues issue_key).map (fun row => row.markdown.length)

/-- Embeds `PersistentCache::issue_comments_md_len`. -/
def issue_comments_md_len (st : PersistentCache) (issue_key : String) : Option Nat :=
  (st.issue_sidecars issue_key).map (fun row => row.comments_md.length)

/-- Embeds `PersistentCache::issue_comments_jsonl_len`. -/
def issue_comments_jsonl_len (st : PersistentCache) (issue_key : String) : Option Nat :=
  (st.issue_sidecars issue_key).map (fun row => row.comments_jsonl.length)

end PersistentCache

/-- Snapshot of a workspace's issue refs plus staleness (cache.rs). -/
structure ProjectIssuesSnapshot where
  issues : List IssueRef
  is_stale : Bool
deriving DecidableEq, Repr

/-- A TTL cache slot (cache.rs `CacheEntry<T>`); `cached_at` is an Instant,
modelled as a natural. For issue entries the wrapped `CachedIssue` is just the
markdown bytes, so `value : Bytes` there. -/
structure CacheEntry (α : Type) where
  value : α
  cached_at : Nat
  ttl : Nat
  source_updated : Option String
deriving DecidableEq, Repr

/-- The in-memory hot tier (cache.rs `InMemoryCache`). The `hits`, `misses`
and `stale_served` fields are modelled from the spec: `crate::metrics` is not
among the provided sources; the spec describes them as plain counters. -/
structure InMemoryCache where
  project_ttl : Nat
  issue_ttl : Nat
  project_issues : String → Option (CacheEntry (List IssueRef))
  issue_markdown : String → Option (CacheEntry Bytes)
  persistent : Option PersistentCache
  hits : Nat
  misses : Nat
  stale_served : Nat

namespace InMemoryCache

/-- Metrics bump on a cache hit. -/
def inc_hit (c : InMemoryCache) : InMemoryCache := {c with hits := c.hits + 1}

/-- Metrics bump on a cache miss. -/
def inc_miss (c : InMemoryCache) : InMemoryCache := {c with misses := c.misses + 1}

/-- Metrics bump when a stale value is served after a refresh failure. -/
def inc_stale_served (c : InMemoryCache) : InMemoryCache :=
  {c with stale_served := c.stale_served + 1}

/-- Embeds `InMemoryCache::has_persistence`. -/
def has_persistence (c : InMemoryCache) : Bool := c.persistent.isSome

/-- Embeds `InMemoryCache::get_project_issues_snapshot`: returns the entry's issues
with `is_stale = (now - cached_at) >= ttl`, bumping the miss counter when
stale and the hit counter otherwise; it does not fetch. -/
def get_project_issues_snapshot (c : InMemoryCache) (now : Nat) (project : String) :
    Option ProjectIssuesSnapshot × InMemoryCache :=
  match c.project_issues project with
  | none => (none, c)
  | some entry =>
    let is_stale := decide (entry.ttl ≤ now - entry.cached_at)
    (some ⟨entry.value, is_stale⟩, if is_stale then inc_miss c else inc_hit c)

/-- Embeds `InMemoryCache::upsert_project_issues` (called `upsert_workspace_issues`
at the warmup.rs call sites): replaces the workspace's entry outright. -/
def upsert_project_issues (c : InMemoryCache) (now : Nat) (project : String)
    (issues : List IssueRef) : InMemoryCache :=
  {c with project_issues := mapUpdate project ⟨issues, now, c.project_ttl, none⟩ c.project_issues}

/-- Embeds `InMemoryCache::cached_issue_len`. -/
def cached_issue_len (c : InMemoryCache) (issue_key : String) : Option Nat :=
  (c.issue_markdown issue_key).map (fun entry => entry.value.length)

/-- Embeds `InMemoryCache::persistent_issue_len` (durable errors read as `none`). -/
def persistent_issue_len (c : InMemoryCache) (issue_key : String) : Option Nat :=
  c.persistent.bind (fun st => st.issue_markdown_len issue_key)

/-- Embeds `InMemoryCache::persistent_comments_md_len`. -/
def persistent_comments_md_len (c : InMemoryCache) (issue_key : String) : Option Nat :=
  c.persistent.bind (fun st => st.issue_comments_md_len issue_key)

/-- Embeds `InMemoryCache::persistent_comments_jsonl_len`. -/
def persistent_comments_jsonl_len (c : InMemoryCache) (issue_key : String) : Option Nat :=
  c.persistent.bind (fun st => st.issue_comments_jsonl_len issue_key)

/-- Embeds `InMemoryCache::get_sync_cursor` (durable errors read as `none`). -/
def get_sync_cursor (c : InMemoryCache) (project : String) : Option String :=
  c.persistent.bind (fun st => st.sync_cursor project)

/-- Embeds `InMemoryCache::set_sync_cursor`: best-effort durable write, no-op without
persistence. -/
def set_sync_cursor (c : InMemoryCache) (project last_sync : String) : InMemoryCache :=
  match c.persistent with
  | some st => {c with persistent := some (st.set_sync_cursor project last_sync)}
  | none => c

/-- Embeds `InMemoryCache::upsert_issues_batch`: write every row into memory under one
guard, then best-effort durable batch; returns the number of rows written to
memory. -/
def upsert_issues_batch (c : InMemoryCache) (now : Nat) (now_str : String)
    (rows : List (String × Bytes × Option String)) : Nat × InMemoryCache :=
  let mem := rows.foldl (fun m r => mapUpdate r.1 ⟨r.2.1, now, c.issue_ttl, r.2.2⟩ m)
    c.issue_markdown
  let c1 := {c with issue_markdown := mem}
  match c1.persistent with
  | some st => (rows.length, {c1 with persistent := some (st.upsert_issues_batch rows now_str)})
  | none => (rows.length, c1)

/-- Embeds `InMemoryCache::upsert_issue_sidecars_batch`: durable-only; returns the
persisted count, or 0 without persistence. -/
def upsert_issue_sidecars_batch (c : InMemoryCache) (now_str : String)
    (rows : List (String × Bytes × Bytes × Option String)) : Nat × InMemoryCache :=
  match c.persistent with
  | some st => (rows.length, {c with persistent := some (st.upsert_issue_sidecars_batch rows now_str)})
  | none => (0, c)

/-- The store-fresh tail of `get_issue_markdown_stale_safe` (cache.rs): put the
fetched value into memory, then best-effort `upsert_issue` into the durable
store. -/
def stale_safe_store_fresh (c : InMemoryCache) (now : Nat) (now_str : String)
    (issue_key : String) (fresh_markdown : Bytes) (fresh_updated : Option String) :
    InMemoryCache :=
  let mem := mapUpdate issue_key ⟨fresh_markdown, now, c.issue_ttl, fresh_updated⟩
    c.issue_markdown
  let c1 := {c with issue_markdown := mem}
  match c1.persistent with
  | some st =>
    {c1 with persistent := some (st.upsert_issue issue_key fresh_markdown fresh_updated now_str)}
  | none => c1

/-- The fetch phase of `get_issue_markdown_stale_safe` (cache.rs, after the
miss-counter bump): on `Err`, serve the previously read memory entry if any
(bumping `stale_served`), else propagate; on `Ok`, a re-read entry with the
same `source_updated` only gets its `cached_at` refreshed and its (old) bytes
returned, otherwise the fresh value is stored and returned. -/
def stale_safe_fetch_phase {ε : Type} (c : InMemoryCache) (now : Nat) (now_str : String)
    (issue_key : String) (fetched : Except ε (Bytes × Option String))
    (existing : Option (CacheEntry Bytes)) : Except ε Bytes × InMemoryCache :=
  let c0 := inc_miss c
  match fetched with
  | .error err =>
    match existing with
    | some entry => (.ok entry.value, inc_stale_served c0)
    | none => (.error err, c0)
  | .ok fresh =>
    match c0.issue_markdown issue_key with
    | some entry =>
      if entry.source_updated = fresh.2 then
        (.ok entry.value,
         {c0 with issue_markdown :=
           mapUpdate issue_key {entry with cached_at := now} c0.issue_markdown})
      else (.ok fresh.1, stale_safe_store_fresh c0 now now_str issue_key fresh.1 fresh.2)
    | none => (.ok fresh.1, stale_safe_store_fresh c0 now now_str issue_key fresh.1 fresh.2)

/-- Embeds `InMemoryCache::get_issue_markdown_stale_safe` (cache.rs), in the source's
order: fresh-hit short-circuit, durable hydration when no memory entry exists,
then the fetch phase. `fetched` is the value the fetch closure would return and
`pfail` injects a failure of the durable read's access-count increment (a
durable error is treated as "no durable row", per `if let Ok(Some(..))`). -/
def get_issue_markdown_stale_safe {ε : Type} (c : InMemoryCache) (now : Nat)
    (now_str : String) (pfail : Bool) (issue_key : String)
    (fetched : Except ε (Bytes × Option String)) : Except ε Bytes × InMemoryCache :=
  match c.issue_markdown issue_key with
  | some entry =>
    if now - entry.cached_at < entry.ttl then (.ok entry.value, inc_hit c)
    else stale_safe_fetch_phase c now now_str issue_key fetched (some entry)
  | none =>
    match c.persistent with
    | some st =>
      match st.get_issue pfail issue_key with
      | (.ok (some issue), st1) =>
        let mem := mapUpdate issue_key ⟨issue.markdown, now, c.issue_ttl, issue.updated⟩
          c.issue_markdown
        let c1 := {c with persistent := some st1, issue_markdown := mem}
        (.ok issue.markdown, inc_hit c1)
      | (.ok none, st1) =>
        stale_safe_fetch_phase {c with persistent := some st1} now now_str issue_key fetched none
      | (.error _, st1) =>
        stale_safe_fetch_phase {c with persistent := some st1} now now_str issue_key fetched none
    | none => stale_safe_fetch_phase c now now_str issue_key fetched none

end InMemoryCache

/-- ASCII fragment of Rust `char::is_whitespace` (Unicode White_Space):
space, tab, newline, carriage return, vertical tab, form feed. -/
def rustIsWhitespace (c : Char) : Bool :=
  c = ' ' || c = '\t' || c = '\n' || c = '\r' || c = '\x0b' || c = '\x0c'

/-- Rust `str::trim` on the character list. -/
def trimChars (cs : List Char) : List Char :=
  ((cs.dropWhile rustIsWhitespace).reverse.dropWhile rustIsWhitespace).reverse

/-- Rust `str::trim`. -/
def rustTrim (s : String) : String := String.mk (trimChars s.toList)

/-- Word character of the regex `\b` boundary (`\w` = alphanumeric or `_`). -/
def isWordChar (c : Char) : Bool := c.isAlphanum || c = '_'

/-- Whitespace class `\s` of the regex crate. -/
def isSpaceChar (c : Char) : Bool :=
  c = ' ' || c = '\t' || c = '\n' || c = '\r' || c = '\x0b' || c = '\x0c'

/-- Matches the regex fragment `by\b` (case-insensitive) at the head of the
character list. -/
def byThenBoundary : List Char → Bool
  | b :: y :: rest =>
    b.toLower = 'b' && y.toLower = 'y' &&
      (match rest with
       | [] => true
       | c :: _ => !isWordChar c)
  | _ => false

/-- Matches `\s+by\b` (case-insensitive) at the head of the character list. -/
def spacesThenBy : List Char → Bool
  | [] => false
  | c :: rest => isSpaceChar c && (byThenBoundary rest || spacesThenBy rest)

/-- Matches `order\s+by\b` (case-insensitive) at the head of the list. -/
def orderByAt : List Char → Bool
  | c1 :: c2 :: c3 :: c4 :: c5 :: rest =>
    c1.toLower = 'o' && c2.toLower = 'r' && c3.toLower = 'd' && c4.toLower = 'e' &&
      c5.toLower = 'r' && spacesThenBy rest
  | _ => false

/-- Scan for the leftmost start of `\border\s+by\b`, tracking whether the
previous character is a word character (for the leading `\b`). -/
def findOrderByAux : Bool → Nat → List Char → Option Nat
  | _, _, [] => none
  | prevWord, i, c :: rest =>
    if !prevWord && orderByAt (c :: rest) then some i
    else findOrderByAux (isWordChar c) (i + 1) rest

/-- Leftmost match start of the warmup.rs regex `(?i)\border\s+by\b`. -/
def findOrderBy (cs : List Char) : Option Nat := findOrderByAux false 0 cs

/-- Embeds `split_jql_order_by` (warmup.rs): locate an order-by clause
case-insensitively in the trimmed query; if present and the preceding filter
is non-empty, return (filter, order clause), else the trimmed query with no
order clause. -/
def split_jql_order_by (jql : String) : String × Option String :=
  let trimmed := rustTrim jql
  match findOrderBy trimmed.toList with
  | some i =>
    let filter := rustTrim (String.mk (trimmed.toList.take i))
    let order := rustTrim (String.mk (trimmed.toList.drop i))
    if filter = "" then (trimmed, none) else (filter, some order)
  | none => (trimmed, none)

/-- Modelled from the spec: the upstream `crate::jira::Issue` is not among the
provided sources; it carries at minimum an issue key and an optional `updated`
timestamp, plus data consumed only by the (external) markdown renderers, which
are abstracted as functions out of this record. -/
structure Issue where
  key : String
  updated : Option String
deriving DecidableEq, Repr

/-- The `SyncResult` record (warmup.rs). -/
structure SyncResult where
  issues_cached : Nat
  issues_skipped : Nat
  errors : List String
deriving DecidableEq, Repr

/-- Environment of a sync pass: the upstream search (jql, page size) and the
external renderers (out of scope per the spec), plus the pass's clock values
(Instant for memory entries, Unix-seconds string for durable rows). -/
structure SyncEnv where
  search : String → Nat → Except String (List Issue)
  render_issue_markdown : Issue → Bytes
  render_issue_comments_markdown : Issue → Bytes
  now : Nat
  now_str : String

/-- Replace `updated` on the first ref with a matching key (warmup.rs merge:
`iter_mut().find(..)`). -/
def updateFirstRef (key : String) (upd : Option String) : List IssueRef → List IssueRef
  | [] => []
  | i :: rest =>
    if i.key = key then {i with updated := upd} :: rest
    else i :: updateFirstRef key upd rest

/-- The warmup.rs merge loop: for each new ref, update the matching existing
ref's `updated`, else append. -/
def mergeRefs (merged : List IssueRef) (latest : List IssueRef) : List IssueRef :=
  latest.foldl
    (fun acc nr =>
      if acc.any (fun i => i.key = nr.key) then updateFirstRef nr.key nr.updated acc
      else acc ++ [nr])
    merged

/-- Cursor selection for one workspace: `force_full` ignores any stored cursor. -/
def sync_cursor_for (force_full : Bool) (c : InMemoryCache) (workspace : String) :
    Option String :=
  if force_full then none else c.get_sync_cursor workspace

/-- Effective query composition (warmup.rs): incremental mode wraps the filter
with `AND updated > "<cursor>"` and re-attaches (or synthesizes) the order
clause; initial mode uses the trimmed base query. -/
def sync_effective_jql (cursor : Option String) (base_jql : String) : String :=
  match cursor with
  | some since =>
    "(" ++ (split_jql_order_by base_jql).1 ++ ") AND updated > \"" ++ since ++ "\" "
      ++ ((split_jql_order_by base_jql).2.getD "ORDER BY updated DESC")
  | none => rustTrim base_jql

/-- The workspace-listing refresh of the warmup.rs loop body: on initial sync
(no cursor) overwrite the listing with the page's refs; on incremental sync
merge the page's refs into the snapshot and sort by key ascending. -/
def sync_refresh_listing (env : SyncEnv) (workspace : String) (cursor : Option String)
    (issues : List Issue) (c : InMemoryCache) : InMemoryCache :=
  let latest_refs := issues.map (fun i => IssueRef.mk i.key i.updated)
  match cursor with
  | none => c.upsert_project_issues env.now workspace latest_refs
  | some _ =>
    let snap := c.get_project_issues_snapshot env.now workspace
    let merged0 := (snap.1.map (fun s => s.issues)).getD []
    let merged := (mergeRefs merged0 latest_refs).mergeSort
      (fun a b => decide (a.key ≤ b.key))
    snap.2.upsert_project_issues env.now workspace merged

/-- The `Ok(issues)` arm of the warmup.rs per-workspace loop body: refresh the
workspace listing, skip empty pages, take `min(page len, remaining budget)`
issues, batch-upsert markdown rows and sidecar rows, advance the cursor to the
first issue's `updated` when present, and report whether the overall budget is
now reached. The sidecar rows built here carry no jsonl component (the
warmup.rs tuples have none); the missing component is modelled as empty
bytes. -/
def sync_workspace_page (env : SyncEnv) (budget : Nat) (workspace : String)
    (cursor : Option String) (issues : List Issue) (c : InMemoryCache)
    (res : SyncResult) : InMemoryCache × SyncResult × Bool :=
  let c1 := sync_refresh_listing env workspace cursor issues c
  if issues.isEmpty then
    (c1, {res with issues_skipped := res.issues_skipped + 1}, false)
  else
    let remaining_budget := budget - res.issues_cached
    let count := min issues.length remaining_budget
    let to_cache := (issues.take count).map
      (fun i => (i.key, env.render_issue_markdown i, i.updated))
    let sidecars := (issues.take count).map
      (fun i => (i.key, env.render_issue_comments_markdown i, ([] : Bytes), i.updated))
    let cb := c1.upsert_issues_batch env.now env.now_str to_cache
    let c2 := (cb.2.upsert_issue_sidecars_batch env.now_str sidecars).2
    let res1 := {res with issues_cached := res.issues_cached + cb.1}
    let c3 :=
      match issues.head?.bind (fun i => i.updated) with
      | some latest => c2.set_sync_cursor workspace latest
      | none => c2
    (c3, res1, decide (budget ≤ res1.issues_cached))

/-- One iteration of the warmup.rs workspace loop: build the effective query,
search upstream, accumulate an error message on failure, else process the
page. -/
def sync_workspace (env : SyncEnv) (budget : Nat) (force_full : Bool)
    (workspace base_jql : String) (c : InMemoryCache) (res : SyncResult) :
    InMemoryCache × SyncResult × Bool :=
  match env.search (sync_effective_jql (sync_cursor_for force_full c workspace) base_jql)
      (min budget 100) with
  | .error err =>
    (c,
     {res with errors := res.errors ++ ["sync failed for workspace " ++ workspace ++ ": " ++ err]},
     false)
  | .ok issues =>
    sync_workspace_page env budget workspace (sync_cursor_for force_full c workspace)
      issues c res

/-- The warmup.rs workspace loop: stop as soon as an iteration reports the
budget reached. -/
def sync_loop (env : SyncEnv) (budget : Nat) (force_full : Bool) :
    List (String × String) → InMemoryCache → SyncResult → InMemoryCache × SyncResult
  | [], c, res => (c, res)
  | (w, base) :: rest, c, res =>
    if (sync_workspace env budget force_full w base c res).2.2 then
      ((sync_workspace env budget force_full w base c res).1,
       (sync_workspace env budget force_full w base c res).2.1)
    else
      sync_loop env budget force_full rest
        (sync_workspace env budget force_full w base c res).1
        (sync_workspace env budget force_full w base c res).2.1

/-- Embeds `sync_issues` (warmup.rs): zero budget is a no-op, a missing durable store
is an error result, otherwise iterate the workspaces. -/
def sync_issues (env : SyncEnv) (c : InMemoryCache) (workspaces : List (String × String))
    (budget : Nat) (force_full : Bool) : InMemoryCache × SyncResult :=
  if budget = 0 then (c, ⟨0, 0, []⟩)
  else if c.has_persistence = false then
    (c, ⟨0, 0, ["cache.db_path must be configured for sync"]⟩)
  else sync_loop env budget force_full workspaces c ⟨0, 0, []⟩

/-- The sync-state coordinator (src/src/sync_state.rs). The `last_sync` and
`last_full_sync` instants and the interval are untouched by the filesystem
write path verified here and are omitted; the three boolean flags are the
atomics of the source. -/
structure SyncState where
  manual_trigger : Bool
  manual_full_trigger : Bool
  sync_in_progress : Bool
deriving DecidableEq, Repr

namespace SyncState

/-- Embeds `SyncState::trigger_manual`. -/
def trigger_manual (s : SyncState) : SyncState := {s with manual_trigger := true}

/-- Embeds `SyncState::check_and_clear_manual_trigger`: atomic swap-to-false, returns
the previous value. -/
def check_and_clear_manual_trigger (s : SyncState) : Bool × SyncState :=
  (s.manual_trigger, {s with manual_trigger := false})

/-- Embeds `SyncState::trigger_manual_full`. -/
def trigger_manual_full (s : SyncState) : SyncState := {s with manual_full_trigger := true}

/-- Embeds `SyncState::check_and_clear_manual_full_trigger`. -/
def check_and_clear_manual_full_trigger (s : SyncState) : Bool × SyncState :=
  (s.manual_full_trigger, {s with manual_full_trigger := false})

end SyncState

/-- Errno replies of the filesystem view (fs.rs uses exactly these). -/
inductive Errno where
  | ENOENT
  | EAGAIN
  | EROFS
  | EINVAL
  | EISDIR
deriving DecidableEq, Repr

/-- Inode number of `.sync_meta/manual_refresh` (fs.rs). -/
def INO_MANUAL_REFRESH : Nat := 0x1003

/-- Inode number of `.sync_meta/full_refresh` (fs.rs). -/
def INO_FULL_REFRESH : Nat := 0x1004

/-- ASCII lowercasing of one character (the fragment of Rust `to_lowercase`
exercised by the control-file protocol, whose trigger words are ASCII). -/
def asciiToLower (c : Char) : Char :=
  if 'A' ≤ c ∧ c ≤ 'Z' then Char.ofNat (c.toNat + 32) else c

/-- ASCII lowercasing of a string. -/
def strToLower (s : String) : String := String.mk (s.toList.map asciiToLower)

/-- Embeds `JiraFuseFs::write` (fs.rs): non-control inodes fail `EROFS`; a non-zero
offset on a control file fails `EINVAL`; otherwise the data is lowercased and
trimmed, `"1"`/`"true"` arms the matching trigger, anything else is silently
accepted, and the byte count (`data.len() as u32`) is returned. -/
def fs_write (s : SyncState) (ino : Nat) (offset : Nat) (data : String) :
    Except Errno (Nat × SyncState) :=
  if ino ≠ INO_MANUAL_REFRESH ∧ ino ≠ INO_FULL_REFRESH then .error .EROFS
  else if offset ≠ 0 then .error .EINVAL
  else
    let trimmed := rustTrim (strToLower data)
    let s1 :=
      if trimmed = "1" ∨ trimmed = "true" then
        if ino = INO_FULL_REFRESH then s.trigger_manual_full else s.trigger_manual
      else s
    .ok (data.utf8ByteSize % 2 ^ 32, s1)

/-- Issue-file flavors (fs.rs `IssueFileKind`). -/
inductive IssueFileKind where
  | Main
  | CommentsMarkdown
  | CommentsJsonl
deriving DecidableEq, Repr

/-- UTF-8 bytes of a string, as naturals. -/
def strBytes (s : String) : List Nat := s.toUTF8.toList.map (fun b => b.toNat)

/-- Embeds `namespace_hash` (fs.rs): 64-bit FNV-1a seeded with a namespace byte, high
bit forced, the value 1 rewritten to 3. Wrapping `u64` arithmetic is modelled
with explicit reduction modulo `2 ^ 64`. -/
def namespace_hash (ns : Nat) (bytes : List Nat) : Nat :=
  let h0 := ((0xcbf29ce484222325 ^^^ ns) * 0x00000100000001b3) % 2 ^ 64
  let h := bytes.foldl (fun acc b => ((acc ^^^ b) * 0x00000100000001b3) % 2 ^ 64) h0
  let value := h ||| 2 ^ 63
  if value = 1 then 3 else value

/-- Embeds `inode_for_project` (fs.rs). -/
def inode_for_project (project : String) : Nat :=
  namespace_hash 0x11 (strBytes project)

/-- Embeds `inode_for_issue` (fs.rs): hashes `project/issue_key` in namespace 0x22. -/
def inode_for_issue (project issue_key : String) : Nat :=
  namespace_hash 0x22 (strBytes (project ++ "/" ++ issue_key))

/-- Embeds `inode_for_issue_kind` (fs.rs): sidecars append a `#comments.*` marker and
use their own namespace bytes. -/
def inode_for_issue_kind (project issue_key : String) : IssueFileKind → Nat
  | .Main => inode_for_issue project issue_key
  | .CommentsMarkdown =>
    namespace_hash 0x23 (strBytes (project ++ "/" ++ issue_key ++ "#comments.md"))
  | .CommentsJsonl =>
    namespace_hash 0x24 (strBytes (project ++ "/" ++ issue_key ++ "#comments.jsonl"))

/-- Suffix test on the character lists of two strings. -/
def strEndsWith (s suf : String) : Bool := suf.toList.isSuffixOf s.toList

/-- Drop the last `n` characters. -/
def strDropRight (s : String) (n : Nat) : String :=
  String.mk (s.toList.take (s.toList.length - n))

/-- String-prefix test on the character lists of two strings. -/
def strStartsWith (s pre : String) : Bool := pre.toList.isPrefixOf s.toList

/-- The `strip_suffix` cascade of `JiraFuseFs::lookup` (fs.rs): `.comments.jsonl`
first, then `.comments.md`, then `.md`. -/
def parse_issue_file_name (name : String) : Option (String × IssueFileKind) :=
  if strEndsWith name ".comments.jsonl" then some (strDropRight name 15, .CommentsJsonl)
  else if strEndsWith name ".comments.md" then some (strDropRight name 12, .CommentsMarkdown)
  else if strEndsWith name ".md" then some (strDropRight name 3, .Main)
  else none

/-- Embeds `JiraFuseFs::issue_main_size` (fs.rs): in-memory length, else durable
length, else 0. -/
def issue_main_size (c : InMemoryCache) (issue_key : String) : Nat :=
  (match c.cached_issue_len issue_key with
   | some n => some n
   | none => c.persistent_issue_len issue_key).getD 0

/-- Embeds `JiraFuseFs::issue_sidecar_size` (fs.rs): sidecar lengths fall back to the
synthetic sizes 64 and 96. -/
def issue_sidecar_size (c : InMemoryCache) (issue_key : String) : IssueFileKind → Nat
  | .Main => issue_main_size c issue_key
  | .CommentsMarkdown => (c.persistent_comments_md_len issue_key).getD 64
  | .CommentsJsonl => (c.persistent_comments_jsonl_len issue_key).getD 96

/-- Embeds `JiraFuseFs::project_issues` (fs.rs): the workspace snapshot's issues, or
empty when no snapshot exists (metrics bumps of the snapshot read are
irrelevant here and omitted). -/
def fs_project_issues (c : InMemoryCache) (project : String) : List IssueRef :=
  match c.project_issues project with
  | some entry => entry.value
  | none => []

/-- The issue-file branch of `JiraFuseFs::lookup` (fs.rs), reached when the
parent inode resolved to a project directory: parse the name's suffix, require
the parsed key to start with `"<project>-"`, then require membership in the
workspace's in-memory issue list; on success reply with the namespaced inode
and the size, else `ENOENT`. -/
def lookup_in_project (c : InMemoryCache) (project name : String) :
    Except Errno (Nat × Nat) :=
  match parse_issue_file_name name with
  | none => .error .ENOENT
  | some pk =>
    if strStartsWith pk.1 (project ++ "-") = false then .error .ENOENT
    else if (fs_project_issues c project).any (fun i => i.key = pk.1) then
      .ok (inode_for_issue_kind project pk.1 pk.2, issue_sidecar_size c pk.1 pk.2)
    else .error .ENOENT

/-- The empty durable store. -/
def emptyStore : PersistentCache where
  issues := fun _ => none
  sync_cursor := fun _ => none
  ticket_index := fun _ => none
  issue_sidecars := fun _ => none

/-- An empty memory cache with 60s TTLs and no persistence. -/
def baseCache : InMemoryCache where
  project_ttl := 60
  issue_ttl := 60
  project_issues := fun _ => none
  issue_markdown := fun _ => none
  persistent := none
  hits := 0
  misses := 0
  stale_served := 0

/-- Cache whose only issue entry is a fresh `K` entry with bytes `[1, 2]`
(cached at 10 with TTL 60, read at time 10). -/
def freshEntryCache : InMemoryCache :=
  {baseCache with issue_markdown := mapUpdate "K" ⟨[1, 2], 10, 60, some "u"⟩ (fun _ => none)}

/-- Store holding one issue row at key `K` with bytes `[9]`. -/
def durableRowStore : PersistentCache :=
  {emptyStore with issues := mapUpdate "K" ⟨[9], some "u", "0", 0⟩ (fun _ => none)}

/-- Cache with no memory entry for `K` but a durable row with bytes `[9]`. -/
def durableOnlyCache : InMemoryCache :=
  {baseCache with persistent := some durableRowStore}

/-- Cache whose only issue entry is an expired `K` entry with bytes `[7]`. -/
def expiredEntryCache : InMemoryCache :=
  {baseCache with issue_markdown := mapUpdate "K" ⟨[7], 0, 1, none⟩ (fun _ => none)}

/-- Cache with an expired `K` entry carrying bytes `[0]` and
`source_updated = "u"`. -/
def sameUpdatedCache : InMemoryCache :=
  {baseCache with issue_markdown := mapUpdate "K" ⟨[0], 0, 1, some "u"⟩ (fun _ => none)}

/-- Cache with an expired `K` memory entry (bytes `[0]`, source `u1`) and a
durable row for `K` with bytes `[9]`. -/
def expiredWithDurableCache : InMemoryCache :=
  {baseCache with
    issue_markdown := mapUpdate "K" ⟨[0], 0, 1, some "u1"⟩ (fun _ => none),
    persistent := some durableRowStore}

/-- Store holding one issue row at key `PROJ-1`. -/
def rowStore : PersistentCache :=
  {emptyStore with issues := mapUpdate "PROJ-1" ⟨[1], some "u1", "0", 1⟩ (fun _ => none)}

/-- A workspace listing for project `PROJ` that contains the foreign key
`OTHER-1`. -/
def lookupWitnessCache : InMemoryCache where
  project_ttl := 60
  issue_ttl := 60
  project_issues := mapUpdate "PROJ" ⟨[⟨"OTHER-1", none⟩], 0, 60, none⟩ (fun _ => none)
  issue_markdown := fun _ => none
  persistent := none
  hits := 0
  misses := 0
  stale_served := 0

/-- Store holding a sync cursor `B` for workspace `WS`. -/
def cursorStore : PersistentCache :=
  {emptyStore with sync_cursor := mapUpdate "WS" "B" (fun _ => none)}

/-- Cache backed by `cursorStore`. -/
def cursorCache : InMemoryCache := {baseCache with persistent := some cursorStore}

/-- Upstream that always returns one issue whose `updated` is `A`. -/
def backwardEnv : SyncEnv where
  search := fun _ _ => .ok [⟨"X-1", some "A"⟩]
  render_issue_markdown := fun _ => []
  render_issue_comments_markdown := fun _ => []
  now := 0
  now_str := "0"

/-- Upstream that always returns one issue with no `updated` field. -/
def noneUpdatedEnv : SyncEnv :=
  {backwardEnv with search := fun _ _ => .ok [⟨"X-1", none⟩]}

/-- Upstream honoring the page size, returning at most one issue. -/
def syncWitnessEnv : SyncEnv where
  search := fun _ n => .ok (if n = 0 then [] else [⟨"WS-1", some "2026-01-01"⟩])
  render_issue_markdown := fun _ => [1]
  render_issue_comments_markdown := fun _ => [2]
  now := 0
  now_str := "0"

/-- Cache backed by the empty store. -/
def syncWitnessCache : InMemoryCache := {baseCache with persistent := some emptyStore}

@[simp] theorem mapUpdate_same {α : Type} (key : String) (v : α) (m : String → Option α) :
    mapUpdate key v m key = some v := by
  simp [mapUpdate]

theorem mapUpdate_ne {α : Type} {k key : String} (v : α) (m : String → Option α)
    (h : k ≠ key) : mapUpdate key v m k = m k := by
  simp [mapUpdate, h]

/-- C1: after a successful `upsert_issue(k, m, u)`, `get_issue(k)` returns
`(m, u)`, and the `ticket_index` table holds exactly one row for `k` (the map
is keyed by `issue_key`, the table's primary key) whose `updated_at` equals `u`
and whose `path` is `projects/<project(k)>/<k>.md`, where `project(k)` is the
text before the first hyphen of `k`, or `UNKNOWN` when `k` has no hyphen. -/
theorem upsert_issue_get_issue_and_ticket_index (st : PersistentCache)
    (k : String) (m : Bytes) (u : Option String) (now : String) :
    ((PersistentCache.upsert_issue st k m u now).get_issue false k).1 = .ok (some ⟨m, u⟩)
    ∧ (PersistentCache.upsert_issue st k m u now).ticket_index k =
        some ⟨project_from_issue_key k, u,
              "projects/" ++ project_from_issue_key k ++ "/" ++ k ++ ".md", now⟩
    ∧ project_from_issue_key k =
        (if k.toList.contains '-' then String.mk (k.toList.takeWhile (fun c => c ≠ '-'))
         else "UNKNOWN") := by
  refine ⟨?_, ?_, rfl⟩
  · simp [PersistentCache.upsert_issue, PersistentCache.upsert_ticket_index,
      PersistentCache.get_issue]
  · simp [PersistentCache.upsert_issue, PersistentCache.upsert_ticket_index]

/-- C7: `split_jql_order_by` locates an order-by clause case-insensitively;
splitting `"project in (X, Y) ORDER BY updated DESC"` yields the filter
`"project in (X, Y)"` and the order clause `"ORDER BY updated DESC"`, and
splitting any query in which the case-insensitive matcher finds no order-by
clause yields the trimmed original string and no order clause. -/
theorem split_jql_order_by_locates_order_clause (q : String)
    (h : findOrderBy (rustTrim q).toList = none) :
    split_jql_order_by "project in (X, Y) ORDER BY updated DESC"
      = ("project in (X, Y)", some "ORDER BY updated DESC")
    ∧ split_jql_order_by q = (rustTrim q, none) := by
  refine ⟨by rfl, ?_⟩
  simp only [split_jql_order_by]
  rw [h]

/-- Witness for C7 at the spec's literal no-order query `"project = DEVO"`. -/
theorem split_jql_order_by_locates_order_clause_witness :
    findOrderBy (rustTrim "project = DEVO").toList = none
    ∧ (split_jql_order_by "project in (X, Y) ORDER BY updated DESC"
        = ("project in (X, Y)", some "ORDER BY updated DESC")
      ∧ split_jql_order_by "project = DEVO" = (rustTrim "project = DEVO", none)) :=
  ⟨by rfl, split_jql_order_by_locates_order_clause "project = DEVO" (by rfl)⟩

/-- C9: writes are accepted only at offset 0 and only on the two control
files. Data whose lowercased, trimmed content is `"1"` or `"true"` arms the
matching trigger flag, so the next check-and-clear returns true, and the full
byte count is returned; any other content on a control file is silently
accepted, also returning the byte count; a write at a non-zero offset on a
control file fails `EINVAL`; a write to any other inode fails `EROFS`. -/
theorem fs_write_control_protocol (s : SyncState) (data : String) (offset ino : Nat)
    (hsize : data.utf8ByteSize < 2 ^ 32) :
    ((rustTrim (strToLower data) = "1" ∨ rustTrim (strToLower data) = "true") →
      (fs_write s INO_MANUAL_REFRESH 0 data = .ok (data.utf8ByteSize, s.trigger_manual)
        ∧ (SyncState.check_and_clear_manual_trigger s.trigger_manual).1 = true)
      ∧ (fs_write s INO_FULL_REFRESH 0 data = .ok (data.utf8ByteSize, s.trigger_manual_full)
        ∧ (SyncState.check_and_clear_manual_full_trigger s.trigger_manual_full).1 = true))
    ∧ (¬(rustTrim (strToLower data) = "1" ∨ rustTrim (strToLower data) = "true") →
      fs_write s INO_MANUAL_REFRESH 0 data = .ok (data.utf8ByteSize, s)
      ∧ fs_write s INO_FULL_REFRESH 0 data = .ok (data.utf8ByteSize, s))
    ∧ (offset ≠ 0 →
      fs_write s INO_MANUAL_REFRESH offset data = .error .EINVAL
      ∧ fs_write s INO_FULL_REFRESH offset data = .error .EINVAL)
    ∧ (ino ≠ INO_MANUAL_REFRESH → ino ≠ INO_FULL_REFRESH →
      fs_write s ino offset data = .error .EROFS) := by
  have hmod : data.utf8ByteSize % 2 ^ 32 = data.utf8ByteSize := Nat.mod_eq_of_lt hsize
  have hman : ∀ s1 : SyncState, fs_write s1 INO_MANUAL_REFRESH 0 data
      = .ok (data.utf8ByteSize,
          if rustTrim (strToLower data) = "1" ∨ rustTrim (strToLower data) = "true"
          then s1.trigger_manual else s1) := by
    intro s1
    simp only [fs_write]
    rw [if_neg (by decide :
          ¬(INO_MANUAL_REFRESH ≠ INO_MANUAL_REFRESH ∧ INO_MANUAL_REFRESH ≠ INO_FULL_REFRESH)),
      if_neg (by decide : ¬(0 : Nat) ≠ 0),
      if_neg (by decide : ¬INO_MANUAL_REFRESH = INO_FULL_REFRESH), hmod]
  have hful : ∀ s1 : SyncState, fs_write s1 INO_FULL_REFRESH 0 data
      = .ok (data.utf8ByteSize,
          if rustTrim (strToLower data) = "1" ∨ rustTrim (strToLower data) = "true"
          then s1.trigger_manual_full else s1) := by
    intro s1
    simp only [fs_write]
    rw [if_neg (by decide :
          ¬(INO_FULL_REFRESH ≠ INO_MANUAL_REFRESH ∧ INO_FULL_REFRESH ≠ INO_FULL_REFRESH)),
      if_neg (by decide : ¬(0 : Nat) ≠ 0), hmod]
    simp
  refine ⟨fun h => ⟨⟨?_, rfl⟩, ⟨?_, rfl⟩⟩, fun h => ⟨?_, ?_⟩, fun hoff => ⟨?_, ?_⟩,
    fun h1 h2 => ?_⟩
  · rw [hman s, if_pos h]
  · rw [hful s, if_pos h]
  · rw [hman s, if_neg h]
  · rw [hful s, if_neg h]
  · simp only [fs_write]
    rw [if_neg (by decide :
          ¬(INO_MANUAL_REFRESH ≠ INO_MANUAL_REFRESH ∧ INO_MANUAL_REFRESH ≠ INO_FULL_REFRESH)),
      if_pos hoff]
  · simp only [fs_write]
    rw [if_neg (by decide :
          ¬(INO_FULL_REFRESH ≠ INO_MANUAL_REFRESH ∧ INO_FULL_REFRESH ≠ INO_FULL_REFRESH)),
      if_pos hoff]
  · simp only [fs_write]
    rw [if_pos ⟨h1, h2⟩]

/-- Witness for C9: test F of the spec — writing `"true\n"` at offset 0 to
`manual_refresh` returns 5 bytes written and arms the manual trigger; a
non-zero offset fails `EINVAL`; a non-control inode fails `EROFS`. -/
theorem fs_write_control_protocol_witness :
    (fs_write ⟨false, false, false⟩ INO_MANUAL_REFRESH 0 "true\n"
        = .ok (("true\n").utf8ByteSize, SyncState.trigger_manual ⟨false, false, false⟩)
      ∧ (SyncState.check_and_clear_manual_trigger
          (SyncState.trigger_manual ⟨false, false, false⟩)).1 = true)
    ∧ fs_write ⟨false, false, false⟩ INO_MANUAL_REFRESH 1 "true\n" = .error .EINVAL
    ∧ fs_write ⟨false, false, false⟩ 42 1 "true\n" = .error .EROFS := by
  have h := fs_write_control_protocol ⟨false, false, false⟩ "true\n" 1 42 (by decide)
  exact ⟨(h.1 (Or.inr (by rfl))).1, (h.2.2.1 (by decide)).1, h.2.2.2 (by decide) (by decide)⟩

/-- C10: for a name that parses as an issue file under a project directory,
`lookup` replies `ENOENT` whenever the parsed issue key does not start with
`"<project>-"`, for every cache state — in particular even when an issue with
that key is present in the workspace's in-memory issue list. -/
theorem lookup_rejects_foreign_issue_keys (c : InMemoryCache) (project name key : String)
    (kind : IssueFileKind)
    (hparse : parse_issue_file_name name = some (key, kind))
    (hpre : strStartsWith key (project ++ "-") = false) :
    lookup_in_project c project name = .error .ENOENT := by
  simp [lookup_in_project, hparse, hpre]


/-- Witness for C10: `OTHER-1` is listed under project `PROJ`, yet looking up
`OTHER-1.md` there replies `ENOENT` because the key lacks the `PROJ-` prefix. -/
theorem lookup_rejects_foreign_issue_keys_witness :
    (fs_project_issues lookupWitnessCache "PROJ").any (fun i => i.key = "OTHER-1") = true
    ∧ parse_issue_file_name "OTHER-1.md" = some ("OTHER-1", .Main)
    ∧ strStartsWith "OTHER-1" ("PROJ" ++ "-") = false
    ∧ lookup_in_project lookupWitnessCache "PROJ" "OTHER-1.md" = .error .ENOENT :=
  ⟨by rfl, by rfl, by rfl,
   lookup_rejects_foreign_issue_keys lookupWitnessCache "PROJ" "OTHER-1.md" "OTHER-1"
     .Main (by rfl) (by rfl)⟩


/-- C2 counterexample: with a FRESH memory entry, a failing fetch is answered
from memory WITHOUT incrementing `stale_served` (the claim demands an
increment for fresh-or-expired entries); and with no memory entry but a
durable row, the fetch error is NOT propagated (the durable row is served). -/
theorem stale_served_not_incremented_on_fresh_hit :
    (InMemoryCache.get_issue_markdown_stale_safe freshEntryCache 10 "0" false "K"
        (.error "boom")).1 = .ok [1, 2]
    ∧ (InMemoryCache.get_issue_markdown_stale_safe freshEntryCache 10 "0" false "K"
        (.error "boom")).2.stale_served = 0
    ∧ (InMemoryCache.get_issue_markdown_stale_safe durableOnlyCache 10 "0" false "K"
        (.error "boom")).1 = .ok [9] :=
  ⟨rfl, rfl, rfl⟩

/-- C2 amended: when the fetch step is reached (no fresh memory entry serves a
hit and no durable row hydrates) and fetch returns `Err`: a (necessarily
expired) memory entry is served with `stale_served` incremented; with no
memory entry and no durable row, the error is propagated. A fresh memory
entry short-circuits before fetch, without touching `stale_served`, and a
durable row hydrates instead of propagating. -/
theorem stale_safe_error_path_amended {ε : Type} (c : InMemoryCache) (now : Nat)
    (now_str : String) (pfail : Bool) (key : String) (err : ε) :
    (∀ entry, c.issue_markdown key = some entry →
      ¬(now - entry.cached_at < entry.ttl) →
      InMemoryCache.get_issue_markdown_stale_safe c now now_str pfail key (.error err)
        = (.ok entry.value, InMemoryCache.inc_stale_served (InMemoryCache.inc_miss c)))
    ∧ (c.issue_markdown key = none →
      (∀ st, c.persistent = some st → st.issues key = none) →
      (InMemoryCache.get_issue_markdown_stale_safe c now now_str pfail key
        (.error err)).1 = .error err) := by
  constructor
  · intro entry hmem hfresh
    simp [InMemoryCache.get_issue_markdown_stale_safe,
      InMemoryCache.stale_safe_fetch_phase, hmem, hfresh]
  · intro hmem hpers
    cases hp : c.persistent with
    | none =>
      simp [InMemoryCache.get_issue_markdown_stale_safe,
        InMemoryCache.stale_safe_fetch_phase, hmem, hp]
    | some st =>
      have hrow := hpers st hp
      simp [InMemoryCache.get_issue_markdown_stale_safe,
        InMemoryCache.stale_safe_fetch_phase, PersistentCache.get_issue, hmem, hp, hrow]

/-- Witness for C2 amended: an expired entry `[7]` is served on fetch failure
and `stale_served` is incremented. -/
theorem stale_safe_error_path_amended_witness :
    InMemoryCache.get_issue_markdown_stale_safe expiredEntryCache 100 "0" false "K"
        (.error "boom")
      = (.ok [7],
         InMemoryCache.inc_stale_served (InMemoryCache.inc_miss expiredEntryCache)) :=
  (stale_safe_error_path_amended expiredEntryCache 100 "0" false "K" "boom").1
    ⟨[7], 0, 1, none⟩ rfl (by decide)

/-- C3 counterexample: with an expired entry `[0]` whose `source_updated`
equals the fetched one, a successful fetch of `[1]` returns the CACHED bytes
`[0]`, not the freshly fetched bytes (the claim requires the fetched bytes). -/
theorem fetch_ok_returns_cached_bytes_on_same_updated :
    (InMemoryCache.get_issue_markdown_stale_safe sameUpdatedCache 100 "0" false "K"
        ((.ok ([1], some "u")) : Except String (Bytes × Option String))).1 = .ok [0]
    ∧ (InMemoryCache.get_issue_markdown_stale_safe sameUpdatedCache 100 "0" false "K"
        ((.ok ([1], some "u")) : Except String (Bytes × Option String))).1 ≠ .ok [1] := by
  have hv : (InMemoryCache.get_issue_markdown_stale_safe sameUpdatedCache 100 "0" false "K"
      ((.ok ([1], some "u")) : Except String (Bytes × Option String))).1
        = Except.ok ([0] : Bytes) := rfl
  refine ⟨hv, ?_⟩
  rw [hv]
  simp

/-- C3 amended: when the fetch step is reached and fetch succeeds with
`(bytes, upd)`, the function returns the freshly fetched bytes — except when
an existing memory entry has the same `source_updated` as `upd`, in which case
only that entry's `cached_at` is refreshed (its value is not rewritten, the
durable store is untouched) and the entry's cached bytes are returned. -/
theorem stale_safe_fetch_ok_amended {ε : Type} (c : InMemoryCache) (now : Nat)
    (now_str : String) (pfail : Bool) (key : String) (b : Bytes) (u : Option String) :
    (∀ entry, c.issue_markdown key = some entry →
      ¬(now - entry.cached_at < entry.ttl) → entry.source_updated = u →
      (InMemoryCache.get_issue_markdown_stale_safe c now now_str pfail key
          ((.ok (b, u)) : Except ε (Bytes × Option String))).1 = .ok entry.value
      ∧ (InMemoryCache.get_issue_markdown_stale_safe c now now_str pfail key
          ((.ok (b, u)) : Except ε (Bytes × Option String))).2.issue_markdown key
          = some {entry with cached_at := now}
      ∧ (InMemoryCache.get_issue_markdown_stale_safe c now now_str pfail key
          ((.ok (b, u)) : Except ε (Bytes × Option String))).2.persistent = c.persistent)
    ∧ (∀ entry, c.issue_markdown key = some entry →
      ¬(now - entry.cached_at < entry.ttl) → entry.source_updated ≠ u →
      (InMemoryCache.get_issue_markdown_stale_safe c now now_str pfail key
          ((.ok (b, u)) : Except ε (Bytes × Option String))).1 = .ok b)
    ∧ (c.issue_markdown key = none →
      (∀ st, c.persistent = some st → st.issues key = none) →
      (InMemoryCache.get_issue_markdown_stale_safe c now now_str pfail key
          ((.ok (b, u)) : Except ε (Bytes × Option String))).1 = .ok b) := by
  refine ⟨?_, ?_, ?_⟩
  · intro entry hmem hfresh hsame
    simp [InMemoryCache.get_issue_markdown_stale_safe,
      InMemoryCache.stale_safe_fetch_phase, InMemoryCache.inc_miss, hmem, hfresh, hsame]
  · intro entry hmem hfresh hdiff
    simp [InMemoryCache.get_issue_markdown_stale_safe,
      InMemoryCache.stale_safe_fetch_phase, InMemoryCache.inc_miss, hmem, hfresh, hdiff]
  · intro hmem hpers
    cases hp : c.persistent with
    | none =>
      simp [InMemoryCache.get_issue_markdown_stale_safe,
        InMemoryCache.stale_safe_fetch_phase, InMemoryCache.inc_miss, hmem, hp]
    | some st =>
      have hrow := hpers st hp
      simp [InMemoryCache.get_issue_markdown_stale_safe,
        InMemoryCache.stale_safe_fetch_phase, PersistentCache.get_issue,
        InMemoryCache.inc_miss, hmem, hp, hrow]

/-- Witness for C3 amended: at the same-`source_updated` cache, the cached
bytes `[0]` come back, the entry keeps its value with a refreshed `cached_at`,
and the (absent) durable store is untouched. -/
theorem stale_safe_fetch_ok_amended_witness :
    (InMemoryCache.get_issue_markdown_stale_safe sameUpdatedCache 100 "0" false "K"
        ((.ok ([1], some "u")) : Except String (Bytes × Option String))).1 = .ok [0]
    ∧ (InMemoryCache.get_issue_markdown_stale_safe sameUpdatedCache 100 "0" false "K"
        ((.ok ([1], some "u")) : Except String (Bytes × Option String))).2.issue_markdown "K"
        = some ⟨[0], 100, 1, some "u"⟩
    ∧ (InMemoryCache.get_issue_markdown_stale_safe sameUpdatedCache 100 "0" false "K"
        ((.ok ([1], some "u")) : Except String (Bytes × Option String))).2.persistent
        = sameUpdatedCache.persistent :=
  (stale_safe_fetch_ok_amended sameUpdatedCache 100 "0" false "K" [1] (some "u")).1
    ⟨[0], 0, 1, some "u"⟩ rfl (by decide) rfl

/-- C4 counterexample: `PROJ-1` has a durable row, yet `get_issue` with a
failing access-count increment returns an error — the increment failure masks
the successful read (the claim says it must not). -/
theorem get_issue_masks_read_on_increment_failure :
    (rowStore.issues "PROJ-1").isSome = true
    ∧ rowStore.get_issue true "PROJ-1" = (.error (), rowStore) :=
  ⟨rfl, rfl⟩

/-- C4 amended: for a key with a durable row, `get_issue` returns the stored
row when the access-count increment succeeds; when the increment fails, the
error propagates through `?` (as the source's doc comment states), masking the
successful read. -/
theorem get_issue_amended (st : PersistentCache) (key : String) (row : IssueRow)
    (h : st.issues key = some row) :
    (st.get_issue false key).1 = .ok (some ⟨row.markdown, row.updated⟩)
    ∧ st.get_issue true key = (.error (), st) := by
  constructor <;> simp [PersistentCache.get_issue, h]

/-- Witness for C4 amended at the concrete one-row store. -/
theorem get_issue_amended_witness :
    (rowStore.get_issue false "PROJ-1").1 = .ok (some ⟨[1], some "u1"⟩)
    ∧ rowStore.get_issue true "PROJ-1" = (.error (), rowStore) :=
  get_issue_amended rowStore "PROJ-1" ⟨[1], some "u1", "0", 1⟩ rfl

/-- C5 counterexample: with an expired memory entry and a durable row `[9]`
present, the read FETCHES (returning the fetched `[1]`) instead of serving the
durable row, contrary to the claim that durable is re-consulted after TTL
expiry. -/
theorem expired_memory_entry_does_not_reconsult_durable :
    (InMemoryCache.get_issue_markdown_stale_safe expiredWithDurableCache 100 "0" false "K"
        ((.ok ([1], some "u2")) : Except String (Bytes × Option String))).1 = .ok [1]
    ∧ (InMemoryCache.get_issue_markdown_stale_safe expiredWithDurableCache 100 "0" false "K"
        ((.ok ([1], some "u2")) : Except String (Bytes × Option String))).1 ≠ .ok [9] := by
  have hv : (InMemoryCache.get_issue_markdown_stale_safe expiredWithDurableCache 100 "0"
      false "K" ((.ok ([1], some "u2")) : Except String (Bytes × Option String))).1
        = Except.ok ([1] : Bytes) := rfl
  refine ⟨hv, ?_⟩
  rw [hv]
  simp

/-- C5 amended: a memory entry dominates reads until its TTL expires (a fresh
entry is served whatever the durable store holds); the durable store is
re-consulted only when NO memory entry exists, hydrating memory from the
durable row; an expired memory entry instead sends the read to fetch (here
shown returning the fetched bytes, not the durable row). -/
theorem memory_dominates_then_fetch_amended {ε : Type} (c : InMemoryCache) (now : Nat)
    (now_str : String) (pfail : Bool) (key : String) :
    (∀ (fetched : Except ε (Bytes × Option String)) entry,
      c.issue_markdown key = some entry → now - entry.cached_at < entry.ttl →
      InMemoryCache.get_issue_markdown_stale_safe c now now_str pfail key fetched
        = (.ok entry.value, InMemoryCache.inc_hit c))
    ∧ (∀ (fetched : Except ε (Bytes × Option String)) st row,
      c.issue_markdown key = none → c.persistent = some st → st.issues key = some row →
      (InMemoryCache.get_issue_markdown_stale_safe c now now_str false key fetched).1
        = .ok row.markdown
      ∧ (InMemoryCache.get_issue_markdown_stale_safe c now now_str false key
          fetched).2.issue_markdown key
        = some ⟨row.markdown, now, c.issue_ttl, row.updated⟩)
    ∧ (∀ entry (b : Bytes) (u : Option String),
      c.issue_markdown key = some entry → ¬(now - entry.cached_at < entry.ttl) →
      entry.source_updated ≠ u →
      (InMemoryCache.get_issue_markdown_stale_safe c now now_str pfail key
          ((.ok (b, u)) : Except ε (Bytes × Option String))).1 = .ok b) := by
  refine ⟨?_, ?_, ?_⟩
  · intro fetched entry hmem hfresh
    simp [InMemoryCache.get_issue_markdown_stale_safe, hmem, hfresh]
  · intro fetched st row hmem hp hrow
    constructor <;>
      simp [InMemoryCache.get_issue_markdown_stale_safe, PersistentCache.get_issue,
        InMemoryCache.inc_hit, hmem, hp, hrow]
  · intro entry b u hmem hfresh hdiff
    simp [InMemoryCache.get_issue_markdown_stale_safe,
      InMemoryCache.stale_safe_fetch_phase, InMemoryCache.inc_miss, hmem, hfresh, hdiff]

/-- Witness for C5 amended: hydration — with no memory entry, the durable row
`[9]` is served and pulled into memory with the row's `updated` as
`source_updated`. -/
theorem memory_dominates_then_fetch_amended_witness :
    (InMemoryCache.get_issue_markdown_stale_safe durableOnlyCache 10 "0" false "K"
        ((.error "nope") : Except String (Bytes × Option String))).1 = .ok [9]
    ∧ (InMemoryCache.get_issue_markdown_stale_safe durableOnlyCache 10 "0" false "K"
        ((.error "nope") : Except String (Bytes × Option String))).2.issue_markdown "K"
      = some ⟨[9], 10, 60, some "u"⟩ :=
  (memory_dominates_then_fetch_amended durableOnlyCache 10 "0" false "K").2.1
    (.error "nope") durableRowStore ⟨[9], some "u", "0", 0⟩ rfl rfl rfl


theorem upsert_issue_sync_cursor (st : PersistentCache) (k : String) (m : Bytes)
    (u : Option String) (now : String) :
    (st.upsert_issue k m u now).sync_cursor = st.sync_cursor := rfl

theorem upsert_issues_batch_sync_cursor (rows : List (String × Bytes × Option String)) :
    ∀ (st : PersistentCache) (now : String),
      (st.upsert_issues_batch rows now).sync_cursor = st.sync_cursor := by
  induction rows with
  | nil => intro st now; rfl
  | cons r rest ih =>
    intro st now
    have hstep : PersistentCache.upsert_issues_batch st (r :: rest) now
        = PersistentCache.upsert_issues_batch (st.upsert_issue r.1 r.2.1 r.2.2 now) rest now :=
      rfl
    rw [hstep, ih, upsert_issue_sync_cursor]

theorem upsert_issue_sidecars_sync_cursor (st : PersistentCache) (k : String)
    (md js : Bytes) (u : Option String) (now : String) :
    (st.upsert_issue_sidecars k md js u now).sync_cursor = st.sync_cursor := rfl

theorem upsert_issue_sidecars_batch_sync_cursor
    (rows : List (String × Bytes × Bytes × Option String)) :
    ∀ (st : PersistentCache) (now : String),
      (st.upsert_issue_sidecars_batch rows now).sync_cursor = st.sync_cursor := by
  induction rows with
  | nil => intro st now; rfl
  | cons r rest ih =>
    intro st now
    have hstep : PersistentCache.upsert_issue_sidecars_batch st (r :: rest) now
        = PersistentCache.upsert_issue_sidecars_batch
            (st.upsert_issue_sidecars r.1 r.2.1 r.2.2.1 r.2.2.2 now) rest now := rfl
    rw [hstep, ih, upsert_issue_sidecars_sync_cursor]

theorem cache_batch_persistent (c : InMemoryCache) (now : Nat) (ns : String)
    (rows : List (String × Bytes × Option String)) :
    ((c.upsert_issues_batch now ns rows).2).persistent
      = c.persistent.map (fun st => st.upsert_issues_batch rows ns) := by
  cases hp : c.persistent <;> simp [InMemoryCache.upsert_issues_batch, hp]

theorem cache_batch_fst (c : InMemoryCache) (now : Nat) (ns : String)
    (rows : List (String × Bytes × Option String)) :
    (c.upsert_issues_batch now ns rows).1 = rows.length := by
  cases hp : c.persistent <;> simp [InMemoryCache.upsert_issues_batch, hp]

theorem cache_sidecars_persistent (c : InMemoryCache) (ns : String)
    (rows : List (String × Bytes × Bytes × Option String)) :
    ((c.upsert_issue_sidecars_batch ns rows).2).persistent
      = c.persistent.map (fun st => st.upsert_issue_sidecars_batch rows ns) := by
  cases hp : c.persistent <;> simp [InMemoryCache.upsert_issue_sidecars_batch, hp]

theorem upsert_project_issues_persistent (c : InMemoryCache) (now : Nat) (p : String)
    (l : List IssueRef) : (c.upsert_project_issues now p l).persistent = c.persistent := rfl

theorem snapshot_persistent (c : InMemoryCache) (now : Nat) (p : String) :
    ((c.get_project_issues_snapshot now p).2).persistent = c.persistent := by
  unfold InMemoryCache.get_project_issues_snapshot
  cases c.project_issues p with
  | none => rfl
  | some e =>
    dsimp only
    split <;> rfl

theorem sync_refresh_listing_persistent (env : SyncEnv) (w : String)
    (cursor : Option String) (issues : List Issue) (c : InMemoryCache) :
    (sync_refresh_listing env w cursor issues c).persistent = c.persistent := by
  unfold sync_refresh_listing
  cases cursor with
  | none => rfl
  | some s =>
    dsimp only
    rw [upsert_project_issues_persistent, snapshot_persistent]

theorem get_sync_cursor_of_persistent_eq {c1 c2 : InMemoryCache}
    (h : c1.persistent = c2.persistent) (w : String) :
    c1.get_sync_cursor w = c2.get_sync_cursor w := by
  unfold InMemoryCache.get_sync_cursor
  rw [h]

theorem cache_batch_get_sync_cursor (c : InMemoryCache) (now : Nat) (ns : String)
    (rows : List (String × Bytes × Option String)) (w : String) :
    ((c.upsert_issues_batch now ns rows).2).get_sync_cursor w = c.get_sync_cursor w := by
  unfold InMemoryCache.get_sync_cursor
  rw [cache_batch_persistent]
  cases c.persistent with
  | none => rfl
  | some st => simp [upsert_issues_batch_sync_cursor]

theorem cache_sidecars_get_sync_cursor (c : InMemoryCache) (ns : String)
    (rows : List (String × Bytes × Bytes × Option String)) (w : String) :
    ((c.upsert_issue_sidecars_batch ns rows).2).get_sync_cursor w = c.get_sync_cursor w := by
  unfold InMemoryCache.get_sync_cursor
  rw [cache_sidecars_persistent]
  cases c.persistent with
  | none => rfl
  | some st => simp [upsert_issue_sidecars_batch_sync_cursor]

theorem cache_batch_persistent_isSome (c : InMemoryCache) (now : Nat) (ns : String)
    (rows : List (String × Bytes × Option String)) :
    ((c.upsert_issues_batch now ns rows).2).persistent.isSome = c.persistent.isSome := by
  rw [cache_batch_persistent]
  cases c.persistent <;> rfl

theorem cache_sidecars_persistent_isSome (c : InMemoryCache) (ns : String)
    (rows : List (String × Bytes × Bytes × Option String)) :
    ((c.upsert_issue_sidecars_batch ns rows).2).persistent.isSome = c.persistent.isSome := by
  rw [cache_sidecars_persistent]
  cases c.persistent <;> rfl

theorem set_then_get_sync_cursor (c : InMemoryCache) (w v : String)
    (h : c.persistent.isSome = true) :
    (c.set_sync_cursor w v).get_sync_cursor w = some v := by
  cases hp : c.persistent with
  | none => rw [hp] at h; simp at h
  | some st =>
    simp [InMemoryCache.set_sync_cursor, InMemoryCache.get_sync_cursor, hp,
      PersistentCache.set_sync_cursor, mapUpdate]

theorem get_sync_cursor_after_page_ops (c0 : InMemoryCache) (now : Nat) (ns : String)
    (rows : List (String × Bytes × Option String))
    (srows : List (String × Bytes × Bytes × Option String)) (w v : String)
    (hps : c0.persistent.isSome = true) :
    ((((c0.upsert_issues_batch now ns rows).2).upsert_issue_sidecars_batch ns srows).2.set_sync_cursor
        w v).get_sync_cursor w = some v := by
  apply set_then_get_sync_cursor
  rw [cache_sidecars_persistent_isSome, cache_batch_persistent_isSome]
  exact hps

theorem get_sync_cursor_after_page_ops_unset (c0 : InMemoryCache) (now : Nat) (ns : String)
    (rows : List (String × Bytes × Option String))
    (srows : List (String × Bytes × Bytes × Option String)) (w : String) :
    ((((c0.upsert_issues_batch now ns rows).2).upsert_issue_sidecars_batch ns srows).2).get_sync_cursor
        w = c0.get_sync_cursor w := by
  rw [cache_sidecars_get_sync_cursor, cache_batch_get_sync_cursor]

theorem sync_workspace_page_cursor (env : SyncEnv) (budget : Nat) (w : String)
    (cursor : Option String) (i0 : Issue) (tl : List Issue) (c : InMemoryCache)
    (res : SyncResult) (hps : c.persistent.isSome = true) :
    (∀ u, i0.updated = some u →
      ((sync_workspace_page env budget w cursor (i0 :: tl) c res).1).get_sync_cursor w
        = some u)
    ∧ (i0.updated = none →
      ((sync_workspace_page env budget w cursor (i0 :: tl) c res).1).get_sync_cursor w
        = c.get_sync_cursor w) := by
  constructor
  · intro u hupd
    simp only [sync_workspace_page, List.isEmpty_cons, Bool.false_eq_true, if_false,
      List.head?_cons, Option.some_bind', hupd]
    rw [get_sync_cursor_after_page_ops]
    rw [sync_refresh_listing_persistent]
    exact hps
  · intro hupd
    simp only [sync_workspace_page, List.isEmpty_cons, Bool.false_eq_true, if_false,
      List.head?_cons, Option.some_bind', hupd]
    rw [get_sync_cursor_after_page_ops_unset]
    exact get_sync_cursor_of_persistent_eq (sync_refresh_listing_persistent env w cursor _ c) w

/-- C6 counterexample: with stored cursor `B` for workspace `WS` and a
`force_full` pass whose page's first issue is updated at `A` (`A < B`), the
cursor is rewritten to `A` — it moves backward, not strictly forward; and when
the first issue of a non-empty page has no `updated` field the cursor is not
advanced at all. -/
theorem sync_cursor_can_move_backward :
    ((sync_issues backwardEnv cursorCache [("WS", "q")] 10 true).1).get_sync_cursor "WS"
      = some "A"
    ∧ cursorCache.get_sync_cursor "WS" = some "B"
    ∧ ("A" : String) < "B"
    ∧ ((sync_issues noneUpdatedEnv cursorCache [("WS", "q")] 10 true).1).get_sync_cursor "WS"
      = some "B" := by
  refine ⟨rfl, rfl, ?_, rfl⟩
  rw [String.lt_iff_toList_lt, show "A".toList = ['A'] from rfl,
    show "B".toList = ['B'] from rfl]
  exact List.Lex.rel (show ('A' : Char) < 'B' by decide)

/-- C6 amended: when processing a workspace whose upstream page is non-empty,
the stored cursor is set to the `updated` field of the first issue returned
when that field is present (whatever its relation to the old cursor — under
upstream newest-first ordering and the incremental filter this is an advance,
but it is not monotone in general, e.g. under `force_full` with an older
page); when the first issue carries no `updated`, the cursor is unchanged. -/
theorem sync_cursor_follows_first_issue (env : SyncEnv) (budget : Nat) (force_full : Bool)
    (w base : String) (c : InMemoryCache) (res : SyncResult) (i0 : Issue) (tl : List Issue)
    (hps : c.persistent.isSome = true)
    (hs : env.search (sync_effective_jql (sync_cursor_for force_full c w) base)
        (min budget 100) = .ok (i0 :: tl)) :
    (∀ u, i0.updated = some u →
      ((sync_workspace env budget force_full w base c res).1).get_sync_cursor w = some u)
    ∧ (i0.updated = none →
      ((sync_workspace env budget force_full w base c res).1).get_sync_cursor w
        = c.get_sync_cursor w) := by
  have hred : sync_workspace env budget force_full w base c res
      = sync_workspace_page env budget w (sync_cursor_for force_full c w) (i0 :: tl) c res := by
    unfold sync_workspace
    rw [hs]
  rw [hred]
  exact sync_workspace_page_cursor env budget w (sync_cursor_for force_full c w) i0 tl c
    res hps

/-- Witness for C6 amended: after a `force_full` pass over `cursorCache`, the
cursor is set to the page's first `updated` value `A`. -/
theorem sync_cursor_follows_first_issue_witness :
    ((sync_workspace backwardEnv 10 true "WS" "q" cursorCache ⟨0, 0, []⟩).1).get_sync_cursor
        "WS" = some "A" :=
  (sync_cursor_follows_first_issue backwardEnv 10 true "WS" "q" cursorCache ⟨0, 0, []⟩
    ⟨"X-1", some "A"⟩ [] rfl rfl).1 "A" rfl

theorem sync_workspace_page_cached_le (env : SyncEnv) (budget : Nat) (w : String)
    (cursor : Option String) (issues : List Issue) (c : InMemoryCache) (res : SyncResult)
    (h : res.issues_cached ≤ budget) :
    ((sync_workspace_page env budget w cursor issues c res).2.1).issues_cached ≤ budget := by
  unfold sync_workspace_page
  by_cases he : issues.isEmpty
  · simp [he]
    exact h
  · simp [he, cache_batch_fst, List.length_map, List.length_take]
    omega

theorem sync_workspace_cached_le (env : SyncEnv) (budget : Nat) (ff : Bool)
    (w base : String) (c : InMemoryCache) (res : SyncResult)
    (h : res.issues_cached ≤ budget) :
    ((sync_workspace env budget ff w base c res).2.1).issues_cached ≤ budget := by
  unfold sync_workspace
  cases hs : env.search (sync_effective_jql (sync_cursor_for ff c w) base) (min budget 100) with
  | error e => simpa using h
  | ok issues => exact sync_workspace_page_cached_le env budget w _ issues c res h

theorem sync_workspace_page_delta (env : SyncEnv) (budget : Nat) (w : String)
    (cursor : Option String) (issues : List Issue) (c : InMemoryCache) (res : SyncResult)
    (hlen : issues.length ≤ min budget 100) :
    ((sync_workspace_page env budget w cursor issues c res).2.1).issues_cached
      ≤ res.issues_cached + min (min budget 100) (budget - res.issues_cached) := by
  unfold sync_workspace_page
  by_cases he : issues.isEmpty
  · simp [he]
  · simp [he, cache_batch_fst, List.length_map, List.length_take]
    omega

theorem sync_workspace_delta (env : SyncEnv) (budget : Nat) (ff : Bool)
    (w base : String) (c : InMemoryCache) (res : SyncResult)
    (hsearch : ∀ q n l, env.search q n = .ok l → l.length ≤ n) :
    ((sync_workspace env budget ff w base c res).2.1).issues_cached
      ≤ res.issues_cached + min (min budget 100) (budget - res.issues_cached) := by
  unfold sync_workspace
  cases hs : env.search (sync_effective_jql (sync_cursor_for ff c w) base) (min budget 100) with
  | error e =>
    simp
  | ok issues =>
    exact sync_workspace_page_delta env budget w _ issues c res (hsearch _ _ _ hs)

theorem sync_loop_cached_le (env : SyncEnv) (budget : Nat) (ff : Bool) :
    ∀ (ws : List (String × String)) (c : InMemoryCache) (res : SyncResult),
      res.issues_cached ≤ budget →
      ((sync_loop env budget ff ws c res).2).issues_cached ≤ budget := by
  intro ws
  induction ws with
  | nil => intro c res h; exact h
  | cons p rest ih =>
    intro c res h
    obtain ⟨w, base⟩ := p
    unfold sync_loop
    cases hstop : (sync_workspace env budget ff w base c res).2.2 with
    | true =>
      simp only [hstop, if_true]
      exact sync_workspace_cached_le env budget ff w base c res h
    | false =>
      simp only [hstop, Bool.false_eq_true, if_false]
      exact ih _ _ (sync_workspace_cached_le env budget ff w base c res h)

/-- C8: assuming the upstream returns pages no longer than the requested page
size, every workspace iteration caches at most
`min(page_size, remaining_budget)` issues (the delta bound), the loop over
workspaces stops as soon as the running total reaches the budget (an iteration
reporting the stop flag makes the loop ignore the remaining workspaces), and
the returned `issues_cached` never exceeds the budget. -/
theorem sync_issues_budget_invariant (env : SyncEnv) (c : InMemoryCache)
    (ws : List (String × String)) (budget : Nat) (ff : Bool)
    (hsearch : ∀ q n l, env.search q n = .ok l → l.length ≤ n) :
    ((sync_issues env c ws budget ff).2).issues_cached ≤ budget
    ∧ (∀ w base c1 res1,
        ((sync_workspace env budget ff w base c1 res1).2.1).issues_cached
          ≤ res1.issues_cached + min (min budget 100) (budget - res1.issues_cached))
    ∧ (∀ w base rest c1 res1,
        (sync_workspace env budget ff w base c1 res1).2.2 = true →
        sync_loop env budget ff ((w, base) :: rest) c1 res1
          = ((sync_workspace env budget ff w base c1 res1).1,
             (sync_workspace env budget ff w base c1 res1).2.1)) := by
  refine ⟨?_, ?_, ?_⟩
  · unfold sync_issues
    by_cases h0 : budget = 0
    · simp [h0]
    · by_cases hp : c.has_persistence = false
      · simp [h0, hp]
      · simp only [h0, hp, if_false]
        exact sync_loop_cached_le env budget ff ws c ⟨0, 0, []⟩ (Nat.zero_le _)
  · intro w base c1 res1
    exact sync_workspace_delta env budget ff w base c1 res1 hsearch
  · intro w base rest c1 res1 hstop
    unfold sync_loop
    simp only [hstop, if_true]

/-- Witness for C8: a one-workspace pass against a page-size-honoring upstream
stays within the budget of 5. -/
theorem sync_issues_budget_invariant_witness :
    ((sync_issues syncWitnessEnv syncWitnessCache [("WS", "project = X")] 5
        false).2).issues_cached ≤ 5 :=
  (sync_issues_budget_invariant syncWitnessEnv syncWitnessCache [("WS", "project = X")] 5
    false (by
      intro q n l h
      cases h
      cases n <;> simp)).1
